import Mathlib

/-!
Verification of the flashcard spaced-repetition engine and quiz-session
state machine described in `spec.md`.

The repository ships the callers and the test suite of the review module
(`cursor-scripts/startup_cards.py`, `tests/test_review.py`,
`tests/test_startup_cards.py`) but not `cursor-scripts/review.py` itself,
so the review module (card store, scheduler, selector, quiz session) is
modelled from the spec, while the quiz-cache / reveal path is embedded
from `startup_cards.py` directly.

Timestamps are rational numbers measured in days, so that
`next_review = now + interval_days` is plain addition.  Ease factors and
intervals are rationals (the spec asks for reals with exact floors and
multiplicative growth; rationals represent every constant involved
exactly).
-/

namespace Review

/-- Modelled from the spec: a flashcard record (spec §3), the review
module's card dict.  `next_review` and `created_at` are timestamps in
days; `last_review` is absent until the first review. -/
structure Card where
  id : String
  question : String
  answer : String
  topic : String
  created_at : ℚ
  last_review : Option ℚ
  repetitions : ℕ
  ease_factor : ℚ
  interval_days : ℚ
  next_review : ℚ
  generated : Bool
  source : Option String
  deriving Repr, DecidableEq

/-- Modelled from the spec: the durable store, an ordered collection of
cards (spec §3). -/
structure Store where
  cards : List Card
  deriving Repr, DecidableEq

/-- Modelled from the spec: the minimum interval a lapsed card is reset
to (spec §4.2, "interval_days reset to the minimum"; one day). -/
def min_interval : ℚ := 1

/-- Modelled from the spec: the ease-factor floor, the standard
spaced-repetition bound 1.3 (spec §3). -/
def ease_floor : ℚ := 13 / 10

/-- Modelled from the spec: the initial ease factor 2.5 (spec §3). -/
def initial_ease : ℚ := 5 / 2

/-- Modelled from the spec: the SM-2 ease-factor adjustment as a function
of the quality rating (spec §4.2: higher quality gives a larger increase,
quality exactly 3 a slight decrease, lower qualities a penalty). -/
def ef_delta (q : ℕ) : ℚ :=
  1 / 10 - (5 - (q : ℚ)) * (8 / 100 + (5 - (q : ℚ)) * (2 / 100))

/-- Modelled from the spec: a fresh card as `add` creates it
(spec §4.1: `repetitions = 0`, `ease_factor = 2.5`, `interval_days = 0`,
`next_review = now`, `created_at = now`, no review yet). -/
def new_card (id question answer topic : String) (now : ℚ) : Card :=
  { id := id
    question := question
    answer := answer
    topic := topic
    created_at := now
    last_review := none
    repetitions := 0
    ease_factor := initial_ease
    interval_days := 0
    next_review := now
    generated := false
    source := none }

/-- Modelled from the spec: the scheduler (spec §4.2).  Quality ≥ 3
("remembered"): repetitions increment, the ease factor moves by
`ef_delta` clamped at the floor, and the interval follows the SM-2 curve
(first repetition 1 day, second 6 days, later ones multiply by the new
ease factor).  Quality < 3 ("lapsed"): repetitions reset to 0, the
interval resets to the minimum, and the ease factor is penalised by the
same clamped adjustment (never increased, since the adjustment is
negative below quality 3).  Either way `next_review = now + interval` and
`last_review = now`. -/
def review (c : Card) (q : ℕ) (now : ℚ) : Card :=
  let ef := max ease_floor (c.ease_factor + ef_delta q)
  if 3 ≤ q then
    let reps := c.repetitions + 1
    let ivl : ℚ := if reps = 1 then 1 else if reps = 2 then 6 else c.interval_days * ef
    { c with repetitions := reps, ease_factor := ef, interval_days := ivl,
             next_review := now + ivl, last_review := some now }
  else
    { c with repetitions := 0, ease_factor := ef, interval_days := min_interval,
             next_review := now + min_interval, last_review := some now }

/-- Card states reachable by the review module: a card freshly created at
time `t`, or a reachable card reviewed with a quality rating 0–5 at a
strictly later clock time (successive process invocations read strictly
increasing clocks). -/
inductive Reaches : Card → ℚ → Prop
  | add (id question answer topic : String) (t : ℚ) :
      Reaches (new_card id question answer topic t) t
  | review (c : Card) (t : ℚ) (q : ℕ) (now : ℚ) :
      Reaches c t → t < now → q ≤ 5 → Reaches (review c q now) now

/-- The scheduling invariant a reachable card satisfies at its last
mutation time `t`: `next_review` is `t` plus the current interval, the
interval is nonnegative and pinned by the repetition count (at most the
minimum after a lapse or at creation, exactly 1 after the first pass, at
least 6 from the second pass on), and the ease factor is at or above its
floor. -/
def CardInv (c : Card) (t : ℚ) : Prop :=
  c.next_review = t + c.interval_days ∧
  0 ≤ c.interval_days ∧
  (c.repetitions = 0 → c.interval_days ≤ 1) ∧
  (c.repetitions = 1 → c.interval_days = 1) ∧
  (2 ≤ c.repetitions → 6 ≤ c.interval_days) ∧
  ease_floor ≤ c.ease_factor

lemma ease_floor_le_review_ease (c : Card) (q : ℕ) (now : ℚ) :
    ease_floor ≤ (review c q now).ease_factor := by
  unfold review
  split <;> simp

lemma ease_floor_le_one : (1 : ℚ) ≤ ease_floor := by norm_num [ease_floor]

lemma one_le_max_ease (x : ℚ) : (1 : ℚ) ≤ max ease_floor x :=
  le_trans ease_floor_le_one (le_max_left _ _)

lemma review_repetitions (c : Card) (q : ℕ) (now : ℚ) :
    (review c q now).repetitions = if 3 ≤ q then c.repetitions + 1 else 0 := by
  unfold review
  split <;> rfl

lemma review_ease (c : Card) (q : ℕ) (now : ℚ) :
    (review c q now).ease_factor = max ease_floor (c.ease_factor + ef_delta q) := by
  unfold review
  split <;> rfl

lemma review_ivl (c : Card) (q : ℕ) (now : ℚ) :
    (review c q now).interval_days =
      if 3 ≤ q then
        if c.repetitions + 1 = 1 then 1
        else if c.repetitions + 1 = 2 then 6
        else c.interval_days * max ease_floor (c.ease_factor + ef_delta q)
      else min_interval := by
  unfold review
  split <;> rfl

lemma review_next_eq (c : Card) (q : ℕ) (now : ℚ) :
    (review c q now).next_review = now + (review c q now).interval_days := by
  unfold review
  split <;> rfl

lemma reaches_inv {c : Card} {t : ℚ} (h : Reaches c t) : CardInv c t := by
  induction h with
  | add id question answer topic t =>
      refine ⟨?_, ?_, ?_, ?_, ?_, ?_⟩ <;> dsimp only [new_card, CardInv]
      · ring
      · norm_num
      · intro _; norm_num
      · intro h0; exact absurd h0 (by norm_num)
      · intro h2; exact absurd h2 (by norm_num)
      · norm_num [ease_floor, initial_ease]
  | review c t q now hr hlt hq ih =>
      obtain ⟨hnx, hnn, h0, h1, h2, hef⟩ := ih
      have hone : (1 : ℚ) ≤ max ease_floor (c.ease_factor + ef_delta q) :=
        one_le_max_ease _
      refine ⟨review_next_eq c q now, ?_, ?_, ?_, ?_, ease_floor_le_review_ease c q now⟩
      · rw [review_ivl]
        by_cases hq3 : 3 ≤ q
        · simp only [hq3, if_true]
          by_cases ha : c.repetitions + 1 = 1
          · rw [if_pos ha]; norm_num
          · rw [if_neg ha]
            by_cases hb : c.repetitions + 1 = 2
            · rw [if_pos hb]; norm_num
            · rw [if_neg hb]
              nlinarith [h2 (by omega : 2 ≤ c.repetitions)]
        · simp only [hq3, if_false]; norm_num [min_interval]
      · intro hrep
        rw [review_repetitions] at hrep
        rw [review_ivl]
        by_cases hq3 : 3 ≤ q
        · rw [if_pos hq3] at hrep; exact absurd hrep (by omega)
        · rw [if_neg hq3]; norm_num [min_interval]
      · intro hrep
        rw [review_repetitions] at hrep
        rw [review_ivl]
        by_cases hq3 : 3 ≤ q
        · rw [if_pos hq3] at hrep
          rw [if_pos hq3, if_pos hrep]
        · rw [if_neg hq3] at hrep; exact absurd hrep (by omega)
      · intro hrep
        rw [review_repetitions] at hrep
        rw [review_ivl]
        by_cases hq3 : 3 ≤ q
        · rw [if_pos hq3] at hrep
          rw [if_pos hq3, if_neg (by omega : ¬ c.repetitions + 1 = 1)]
          by_cases hb : c.repetitions + 1 = 2
          · rw [if_pos hb]
          · rw [if_neg hb]
            nlinarith [h2 (by omega : 2 ≤ c.repetitions)]
        · rw [if_neg hq3] at hrep; exact absurd hrep (by omega)

/-- A pass review never shrinks the interval of a reachable card. -/
lemma review_interval_grows {c : Card} {t : ℚ} (h : Reaches c t) {q : ℕ}
    (hq : 3 ≤ q) (now : ℚ) :
    c.interval_days ≤ (review c q now).interval_days := by
  obtain ⟨hnx, hnn, h0, h1, h2, hef⟩ := reaches_inv h
  have hone : (1 : ℚ) ≤ max ease_floor (c.ease_factor + ef_delta q) :=
    one_le_max_ease _
  rw [review_ivl]
  simp only [hq, if_true]
  split_ifs with ha hb
  · exact h0 (by omega)
  · have hcr : c.interval_days = 1 := h1 (by omega)
    rw [hcr]; norm_num
  · nlinarith

/-- The interval a review assigns is never negative (for a reachable
card). -/
lemma review_interval_nonneg {c : Card} {t : ℚ} (h : Reaches c t) (q : ℕ) (now : ℚ) :
    0 ≤ (review c q now).interval_days := by
  obtain ⟨hnx, hnn, h0, h1, h2, hef⟩ := reaches_inv h
  have hone : (1 : ℚ) ≤ max ease_floor (c.ease_factor + ef_delta q) :=
    one_le_max_ease _
  rw [review_ivl]
  split_ifs with hq3 ha hb
  · norm_num
  · norm_num
  · nlinarith
  · norm_num [min_interval]

/-- Modelled from the spec: the error kinds of the review module's
operations (spec §7). -/
inductive ReviewErr
  | notFound
  | validationError
  | corruptState
  deriving Repr, DecidableEq

/-- Modelled from the spec: id generation at card creation; ids carry a
fixed prefix, so they are never empty. -/
def gen_id (s : Store) : String := "card_" ++ toString s.cards.length

/-- Modelled from the spec: `add(question, answer, topic)` (spec §4.1):
rejects an empty question or answer with a `ValidationError`, otherwise
appends a fresh card with default scheduling fields and returns it
together with the persisted store. -/
def add_card (s : Store) (question answer topic : String) (now : ℚ) :
    Except ReviewErr (Card × Store) :=
  if question = "" ∨ answer = "" then .error .validationError
  else
    let c := new_card (gen_id s) question answer topic now
    .ok (c, ⟨s.cards ++ [c]⟩)

/-- Modelled from the spec: `load()` (spec §4.1): an absent store file
yields the empty collection, never an error. -/
def load_cards (file : Option Store) : Store := file.getD ⟨[]⟩

/-- Modelled from the spec: lookup by id (spec §4.1). -/
def find_card (s : Store) (id : String) : Option Card :=
  s.cards.find? (fun c => decide (c.id = id))

/-- Modelled from the spec: the store-level review side effect: the card
with the given id is rescheduled in place, all other cards are left
untouched (spec §4.2). -/
def store_review (s : Store) (id : String) (q : ℕ) (now : ℚ) : Store :=
  ⟨s.cards.map (fun c => if c.id = id then review c q now else c)⟩

/-- Modelled from the spec: `review_card(id, quality)` (spec §6, §7): an
unknown id is a `NotFoundError`; otherwise the updated card is returned
and persisted via the store. -/
def review_card (s : Store) (id : String) (q : ℕ) (now : ℚ) :
    Except ReviewErr (Card × Store) :=
  match find_card s id with
  | none => .error .notFound
  | some c => .ok (review c q now, store_review s id q now)

/-- Insert a card into a list sorted by `next_review`, after any card due
no later than it (stable: ties keep insertion order, spec §4.3). -/
def insert_due (c : Card) : List Card → List Card
  | [] => [c]
  | d :: ds => if d.next_review ≤ c.next_review then d :: insert_due c ds else c :: d :: ds

/-- Stable insertion sort by `next_review` (spec §4.3: soonest-due
first, ties broken by insertion order). -/
def sort_due : List Card → List Card
  | [] => []
  | c :: cs => insert_due c (sort_due cs)

/-- Modelled from the spec: `due(now)` (spec §4.3): all cards with
`next_review ≤ now`, soonest due first. -/
def due_cards (s : Store) (now : ℚ) : List Card :=
  sort_due (s.cards.filter (fun c => decide (c.next_review ≤ now)))

/-- A card's `source` matches the filter when it is one of the given
paths (spec §4.3). -/
def matches_source (c : Card) (files : List String) : Bool :=
  match c.source with
  | some src => files.contains src
  | none => false

/-- Modelled from the spec: the two-tier candidate pool of the random
selector (spec §4.3): cards whose source matches the filter when any do,
the whole store otherwise. -/
def selector_pool (s : Store) (from_files : Option (List String)) : List Card :=
  match from_files with
  | some files =>
      let m := s.cards.filter (fun c => matches_source c files)
      if m.isEmpty then s.cards else m
  | none => s.cards

/-- Modelled from the spec: `random(filter?)` (spec §4.3).  The uniform
random draw is modelled by an arbitrary index `pick` reduced modulo the
pool size, so every card of the pool is the outcome of some draw; an
empty store yields none. -/
def get_random_card (s : Store) (from_files : Option (List String)) (pick : ℕ) :
    Option Card :=
  let pool := selector_pool s from_files
  if h : pool = [] then none
  else some (pool.get ⟨pick % pool.length, Nat.mod_lt _ (List.length_pos.mpr h)⟩)

/-- Modelled from the spec: the quiz-session status (spec §4.5). -/
inductive QuizStatus
  | idle
  | active
  | complete
  deriving Repr, DecidableEq

/-- Modelled from the spec: the persisted quiz-session state (spec §3):
mode queue, current card, counters and status. -/
structure QuizState where
  status : QuizStatus
  queue : List Card
  current : Option Card
  answered : ℕ
  skipped : ℕ
  correct : ℕ
  total : ℕ
  deriving Repr, DecidableEq

/-- The idle session: no queue, no current card, zero counters. -/
def idle_state : QuizState :=
  { status := .idle, queue := [], current := none,
    answered := 0, skipped := 0, correct := 0, total := 0 }

/-- Modelled from the spec: reading the session state file; a missing
file is equivalent to `IDLE` (spec §4.5 persistence). -/
def read_quiz_state (file : Option QuizState) : QuizState := file.getD idle_state

/-- Modelled from the spec: `clear()` unconditionally resets to idle
(spec §4.5). -/
def clear_quiz_state : QuizState := idle_state

/-- Modelled from the spec: the fixed "engaged" quality used when a quiz
answer is recorded as a review (spec §4.5; `startup_cards.py` uses 4). -/
def engaged_quality : ℕ := 4

/-- Modelled from the spec: `start(practice, limit?)` (spec §4.5).  With
`practice = false` the queue is `due(now)`; when that is empty a "no
cards due" message is returned and the state is left untouched (no
session is created).  With `practice = true` the queue is up to `limit`
cards (the random draw of spec §4.3 is abstracted to a store prefix;
no claim depends on which cards practice mode picks); an empty pool
returns an "add cards" message and leaves the state untouched. -/
def quiz_start (s : Store) (st : QuizState) (practice : Bool)
    (practice_limit : ℕ) (now : ℚ) : String × QuizState :=
  if practice then
    match s.cards.take practice_limit with
    | [] => ("No cards yet. Add cards, then practice.", st)
    | c :: rest =>
        ("PRACTICE QUIZ\nQ: " ++ c.question,
         { status := .active, queue := rest, current := some c,
           answered := 0, skipped := 0, correct := 0, total := rest.length + 1 })
  else
    match due_cards s now with
    | [] => ("No cards due today.", st)
    | c :: rest =>
        ("QUIZ\nQ: " ++ c.question,
         { status := .active, queue := rest, current := some c,
           answered := 0, skipped := 0, correct := 0, total := rest.length + 1 })

/-- Modelled from the spec: `answer(text)` (spec §4.5).  Outside an
active session it reports "no quiz in progress" and mutates nothing.
Otherwise it reveals the correct answer, records a review at the engaged
quality when the current card is a real (non-generated) store card,
and advances the queue or completes the session. -/
def quiz_answer (s : Store) (st : QuizState) (t : String) (now : ℚ) :
    String × Store × QuizState :=
  if st.status = .active then
    match st.current with
    | none => ("No quiz in progress.", s, st)
    | some c =>
        let s2 := if c.generated = false ∧ c.id ≠ "" then
            store_review s c.id engaged_quality now
          else s
        match st.queue with
        | [] =>
            ("CORRECT ANSWER: " ++ c.answer ++ "\nQUIZ COMPLETE " ++
               toString (st.answered + 1) ++ " of " ++ toString st.total,
             s2,
             { status := .complete, queue := [], current := none,
               answered := st.answered + 1, skipped := st.skipped,
               correct := st.correct + 1, total := st.total })
        | c2 :: rest =>
            ("CORRECT ANSWER: " ++ c.answer ++ "\nQ: " ++ c2.question,
             s2,
             { status := .active, queue := rest, current := some c2,
               answered := st.answered + 1, skipped := st.skipped,
               correct := st.correct + 1, total := st.total })
  else ("No quiz in progress.", s, st)

/-- Modelled from the spec: `skip()` (spec §4.5): same precondition as
`answer`, advances without scheduling and without counting as correct. -/
def quiz_skip (s : Store) (st : QuizState) (now : ℚ) :
    String × Store × QuizState :=
  if st.status = .active then
    match st.current with
    | none => ("No quiz in progress.", s, st)
    | some c =>
        match st.queue with
        | [] =>
            ("Skipped.\nQUIZ COMPLETE " ++ toString st.answered ++ " of " ++
               toString st.total,
             s,
             { status := .complete, queue := [], current := none,
               answered := st.answered, skipped := st.skipped + 1,
               correct := st.correct, total := st.total })
        | c2 :: rest =>
            ("Skipped.\nQ: " ++ c2.question,
             s,
             { status := .active, queue := rest, current := some c2,
               answered := st.answered, skipped := st.skipped + 1,
               correct := st.correct, total := st.total })
  else ("No quiz in progress.", s, st)

end Review

namespace StartupCards

/-- The quiz dict built by `startup_cards.get_quiz_card`: an optional
card and a source-type label (`startup_cards.py`, lines 130-133). -/
structure Quiz where
  card : Option Review.Card
  source_type : String
  deriving Repr, DecidableEq

/-- The cache file as `load_quiz_card` exposes it: `none` stands for a
missing, unreadable or malformed `.current_quiz.json` (every exception
path returns the empty dict, lines 86-95); `some q` for a readable cache
holding the quiz `q`. -/
def load_quiz_card (cache : Option Quiz) : Option Quiz := cache

/-- `get_quiz_card` (`startup_cards.py`, lines 98-138).  Returns the
quiz together with the cache file content after the call.  With
`use_cache = true` it loads the saved card only and never generates or
writes; an empty cache yields the empty quiz (`card = None`,
`source_type = ""`).  Otherwise it draws a card (yesterday's files
first, then any card) and saves the quiz to the cache.  The git lookup
of yesterday's files and the random draw are inputs
(`yesterday_files`, `pick`). -/
def get_quiz_card (use_cache : Bool) (cache : Option Quiz) (s : Review.Store)
    (yesterday_files : List String) (pick : ℕ) : Quiz × Option Quiz :=
  if use_cache then
    match load_quiz_card cache with
    | some q =>
        if q.card.isSome then (q, cache)
        else ({ card := none, source_type := "" }, cache)
    | none => ({ card := none, source_type := "" }, cache)
  else
    let from_y : Option Review.Card :=
      if yesterday_files.isEmpty then none
      else Review.get_random_card s (some yesterday_files) pick
    match from_y with
    | some c =>
        let q : Quiz := { card := some c, source_type := "yesterday_flashcard" }
        (q, some q)
    | none =>
        match Review.get_random_card s none pick with
        | some c =>
            let q : Quiz := { card := some c, source_type := "random_flashcard" }
            (q, some q)
        | none =>
            let q : Quiz := { card := none, source_type := "random" }
            (q, some q)

/-- The horizontal rule used by the formatters (`startup_cards.py`). -/
def rule_line : String := "─────────────────────────────────────────"

/-- `reveal_answer` (`startup_cards.py`, lines 208-227): without a card
the exact text "No quiz card available."; with a card the answer block,
plus a source line when the card has a truthy source. -/
def reveal_answer (quiz : Quiz) : String :=
  match quiz.card with
  | none => "No quiz card available."
  | some c =>
      let base := [rule_line, "🎴 ANSWER", "", "   A: " ++ c.answer, ""]
      let with_src :=
        match c.source with
        | some src => if src ≠ "" then base ++ ["   Source: " ++ src] else base
        | none => base
      String.intercalate "\n" (with_src ++ [rule_line])

/-- The store mutation of the `--reveal` branch of `main`
(`startup_cards.py`, lines 279-286): `review_card(card["id"], 4)` is
invoked only when the quiz holds a card with a truthy id whose
`generated` flag is falsy; otherwise the store is untouched. -/
def reveal_step (s : Review.Store) (quiz : Quiz) (now : ℚ) : Review.Store :=
  match quiz.card with
  | none => s
  | some c =>
      if c.id ≠ "" ∧ c.generated = false then Review.store_review s c.id 4 now
      else s

end StartupCards

namespace Review

lemma review_id (c : Card) (q : ℕ) (now : ℚ) : (review c q now).id = c.id := by
  unfold review
  split <;> rfl

lemma review_generated (c : Card) (q : ℕ) (now : ℚ) :
    (review c q now).generated = c.generated := by
  unfold review
  split <;> rfl

/-- After a review performed strictly after the previous mutation, a
remembered card's due date strictly advances. -/
lemma review_next_gt {c : Card} {t now : ℚ} {q : ℕ} (h : Reaches c t)
    (hlt : t < now) (hq : 3 ≤ q) :
    c.next_review < (review c q now).next_review := by
  obtain ⟨hnx, hnn, h0, h1, h2, hef⟩ := reaches_inv h
  have hgrow := review_interval_grows h hq now
  rw [review_next_eq, hnx]
  linarith

lemma selector_pool_eq_nil_iff (s : Store) (ff : Option (List String)) :
    selector_pool s ff = [] ↔ s.cards = [] := by
  cases ff with
  | none => exact Iff.rfl
  | some files =>
      unfold selector_pool
      dsimp only
      by_cases hm : (s.cards.filter (fun c => matches_source c files)).isEmpty
      · rw [if_pos hm]
      · rw [if_neg hm]
        constructor
        · intro h
          have hemp : (s.cards.filter (fun c => matches_source c files)).isEmpty = true := by
            rw [h]; rfl
          exact absurd hemp hm
        · intro h
          simp [h] at hm

lemma get_random_card_mem {s : Store} {ff : Option (List String)} {pick : ℕ}
    {c : Card} (h : get_random_card s ff pick = some c) :
    c ∈ selector_pool s ff := by
  unfold get_random_card at h
  by_cases hp : selector_pool s ff = []
  · rw [dif_pos hp] at h
    exact absurd h (by simp)
  · rw [dif_neg hp] at h
    have hc := Option.some_inj.mp h
    rw [← hc]
    exact List.get_mem _ _ _

lemma get_random_card_none_iff (s : Store) (ff : Option (List String)) (pick : ℕ) :
    get_random_card s ff pick = none ↔ s.cards = [] := by
  unfold get_random_card
  by_cases hp : selector_pool s ff = []
  · rw [dif_pos hp]
    simp [(selector_pool_eq_nil_iff s ff).mp hp]
  · rw [dif_neg hp]
    simp only [reduceCtorEq, false_iff]
    exact fun hc => hp ((selector_pool_eq_nil_iff s ff).mpr hc)

lemma get_random_card_surj {s : Store} {ff : Option (List String)} {c : Card}
    (h : c ∈ selector_pool s ff) :
    ∃ k, get_random_card s ff k = some c := by
  obtain ⟨i, hi⟩ := List.mem_iff_get.mp h
  refine ⟨(i : ℕ), ?_⟩
  have hp : selector_pool s ff ≠ [] := by
    intro h0
    rw [h0] at h
    exact absurd h (List.not_mem_nil c)
  unfold get_random_card
  rw [dif_neg hp]
  have hfin : (⟨(i : ℕ) % (selector_pool s ff).length,
      Nat.mod_lt _ (List.length_pos.mpr hp)⟩ : Fin (selector_pool s ff).length) = i :=
    Fin.ext (Nat.mod_eq_of_lt i.isLt)
  rw [hfin, hi]

end Review

/-- A store holding one fresh card, created at time 0. -/
def sample_card : Review.Card := Review.new_card "card_0" "Q1?" "A1" "dev" 0

/-- The singleton store around `sample_card`. -/
def sample_store : Review.Store := ⟨[sample_card]⟩

/-- The empty store. -/
def empty_store : Review.Store := ⟨[]⟩

/-- Counterexample trace for C2: a fresh card passed twice (qualities 5
at times 1 and 2), reaching `repetitions = 2`, `interval_days = 6`,
`next_review = 8`. -/
def cx_card0 : Review.Card := Review.new_card "card_0" "Q" "A" "general" 0

def cx_card1 : Review.Card := Review.review cx_card0 5 1

def cx_card2 : Review.Card := Review.review cx_card1 5 2

def cx_store : Review.Store := ⟨[cx_card2]⟩

lemma cx_card2_reaches : Review.Reaches cx_card2 2 :=
  Review.Reaches.review cx_card1 1 5 2
    (Review.Reaches.review cx_card0 0 5 1
      (Review.Reaches.add "card_0" "Q" "A" "general" 0)
      (by norm_num) (by norm_num))
    (by norm_num) (by norm_num)

lemma cx_card1_reps : cx_card1.repetitions = 1 := by
  rw [cx_card1, Review.review_repetitions]
  norm_num [cx_card0, Review.new_card]

lemma cx_card1_next : cx_card1.next_review = 2 := by
  rw [cx_card1, Review.review_next_eq, Review.review_ivl]
  norm_num [cx_card0, Review.new_card]

lemma cx_card2_next : cx_card2.next_review = 8 := by
  rw [cx_card2, Review.review_next_eq, Review.review_ivl, cx_card1_reps]
  norm_num

lemma cx_card2_id : cx_card2.id = "card_0" := by
  rw [cx_card2, Review.review_id, cx_card1, Review.review_id]
  rfl

lemma cx_find : Review.find_card cx_store "card_0" = some cx_card2 :=
  List.find?_cons_of_pos _ (by simp [cx_card2_id])

lemma cx_lapse_next : (Review.review cx_card2 0 3).next_review = 4 := by
  rw [Review.review_next_eq, Review.review_ivl]
  norm_num [Review.min_interval]

/-- C1: for every stored non-generated card and every quality rating
q ≥ 3, `review_card(id, q)` succeeds and yields an updated card whose
`next_review` is strictly greater than the card's `next_review` before
the call.  The card is a reachable store state (`Reaches c t`) and the
call happens at a clock time strictly after the card's last mutation. -/
theorem claim_C1 (s : Review.Store) (id : String) (c : Review.Card)
    (t now : ℚ) (q : ℕ)
    (hfind : Review.find_card s id = some c) (hgen : c.generated = false)
    (hreach : Review.Reaches c t) (hnow : t < now) (hq : 3 ≤ q) :
    ∃ c2 s2, Review.review_card s id q now = .ok (c2, s2) ∧
      c.next_review < c2.next_review := by
  refine ⟨Review.review c q now, Review.store_review s id q now, ?_,
    Review.review_next_gt hreach hnow hq⟩
  unfold Review.review_card
  rw [hfind]

/-- C1 witness: the fresh sample card reviewed with quality 4 at time 1. -/
theorem claim_C1_witness :
    ∃ c2 s2, Review.review_card sample_store "card_0" 4 1 = .ok (c2, s2) ∧
      sample_card.next_review < c2.next_review :=
  claim_C1 sample_store "card_0" sample_card 0 1 4 rfl rfl
    (Review.Reaches.add "card_0" "Q1?" "A1" "dev" 0) (by norm_num) (by norm_num)

/-- C2 counterexample: the claim's `next_review` monotonicity fails as
stated.  A reachable stored card with `next_review = 8` (two passes at
times 1 and 2), lapsed early (quality 0 at time 3, a rating in 0–5)
through `review_card`, gets `next_review = 4 < 8`: the review moved the
due date backward. -/
theorem claim_C2_counterexample :
    Review.Reaches cx_card2 2 ∧
    cx_card2.next_review = 8 ∧
    Review.review_card cx_store "card_0" 0 3 =
      .ok (Review.review cx_card2 0 3, Review.store_review cx_store "card_0" 0 3) ∧
    (Review.review cx_card2 0 3).next_review = 4 ∧
    (Review.review cx_card2 0 3).next_review < cx_card2.next_review := by
  refine ⟨cx_card2_reaches, cx_card2_next, ?_, cx_lapse_next, ?_⟩
  · unfold Review.review_card
    rw [cx_find]
  · rw [cx_lapse_next, cx_card2_next]
    norm_num

/-- C2 (amended): over every sequence of reviews of a reachable card,
`ease_factor` never drops below the 1.3 floor, and `next_review` is
non-decreasing provided the review is performed no earlier than the
card's scheduled `next_review` (the due date can move backward only when
a card with a long interval lapses before it is due). -/
theorem claim_C2 (c : Review.Card) (t now : ℚ) (q : ℕ)
    (hreach : Review.Reaches c t) :
    Review.ease_floor ≤ c.ease_factor ∧
    Review.ease_floor ≤ (Review.review c q now).ease_factor ∧
    (c.next_review ≤ now →
      c.next_review ≤ (Review.review c q now).next_review) := by
  refine ⟨(Review.reaches_inv hreach).2.2.2.2.2,
    Review.ease_floor_le_review_ease c q now, fun hdue => ?_⟩
  have hnn := Review.review_interval_nonneg hreach q now
  rw [Review.review_next_eq]
  linarith

/-- C2 witness: the sample card, reviewed at time 1 with quality 4. -/
theorem claim_C2_witness :
    Review.ease_floor ≤ sample_card.ease_factor ∧
    Review.ease_floor ≤ (Review.review sample_card 4 1).ease_factor ∧
    (sample_card.next_review ≤ 1 →
      sample_card.next_review ≤ (Review.review sample_card 4 1).next_review) :=
  claim_C2 sample_card 0 1 4 (Review.Reaches.add "card_0" "Q1?" "A1" "dev" 0)

/-- C3: for every stored card and quality q < 3, `review_card(id, q)`
returns a card with `repetitions = 0`, `interval_days` equal to the
minimum interval, and an `ease_factor` no greater than before. -/
theorem claim_C3 (s : Review.Store) (id : String) (c : Review.Card)
    (t now : ℚ) (q : ℕ)
    (hfind : Review.find_card s id = some c)
    (hreach : Review.Reaches c t) (hq : q < 3) :
    ∃ c2 s2, Review.review_card s id q now = .ok (c2, s2) ∧
      c2.repetitions = 0 ∧ c2.interval_days = Review.min_interval ∧
      c2.ease_factor ≤ c.ease_factor := by
  have hq3 : ¬ 3 ≤ q := by omega
  have hef := (Review.reaches_inv hreach).2.2.2.2.2
  have hdelta : Review.ef_delta q ≤ 0 := by
    interval_cases q <;> norm_num [Review.ef_delta]
  refine ⟨Review.review c q now, Review.store_review s id q now, ?_, ?_, ?_, ?_⟩
  · unfold Review.review_card
    rw [hfind]
  · rw [Review.review_repetitions, if_neg hq3]
  · rw [Review.review_ivl, if_neg hq3]
  · rw [Review.review_ease]
    have hfl : Review.ease_floor ≤ c.ease_factor := hef
    exact max_le hfl (by linarith)

/-- C3 witness: the sample card lapsed with quality 0 at time 1. -/
theorem claim_C3_witness :
    ∃ c2 s2, Review.review_card sample_store "card_0" 0 1 = .ok (c2, s2) ∧
      c2.repetitions = 0 ∧ c2.interval_days = Review.min_interval ∧
      c2.ease_factor ≤ sample_card.ease_factor :=
  claim_C3 sample_store "card_0" sample_card 0 1 0 rfl
    (Review.Reaches.add "card_0" "Q1?" "A1" "dev" 0) (by norm_num)

/-- C4: `get_random_card` never returns none on a non-empty store and
returns none exactly on the empty store; the result always lies in the
two-tier pool, which is the matching subset when some card's source
matches and the entire store otherwise; and every card of the pool is
drawn by some pick, so no eligible card is excluded. -/
theorem claim_C4 (s : Review.Store) (ff : Option (List String)) (pick : ℕ) :
    (Review.get_random_card s ff pick = none ↔ s.cards = []) ∧
    (∀ c, Review.get_random_card s ff pick = some c →
      c ∈ Review.selector_pool s ff) ∧
    (∀ files, (s.cards.filter (fun c => Review.matches_source c files)).isEmpty = true →
      Review.selector_pool s (some files) = s.cards) ∧
    (∀ files, (s.cards.filter (fun c => Review.matches_source c files)).isEmpty = false →
      Review.selector_pool s (some files) =
        s.cards.filter (fun c => Review.matches_source c files)) ∧
    (∀ c, c ∈ Review.selector_pool s ff →
      ∃ k, Review.get_random_card s ff k = some c) := by
  refine ⟨Review.get_random_card_none_iff s ff pick,
    fun c h => Review.get_random_card_mem h, ?_, ?_,
    fun c h => Review.get_random_card_surj h⟩
  · intro files hemp
    unfold Review.selector_pool
    dsimp only
    rw [if_pos hemp]
  · intro files hnemp
    unfold Review.selector_pool
    dsimp only
    rw [if_neg (by rw [hnemp]; exact Bool.false_ne_true)]

/-- C5: `quiz_start(practice=False)` with no cards due returns the
"no cards due" text, creates no session (the state is returned
unchanged, still idle), and a `quiz_answer` issued right afterwards
still reports "no quiz in progress". -/
theorem claim_C5 (s : Review.Store) (st : Review.QuizState) (limit : ℕ)
    (now now2 : ℚ) (t2 : String)
    (hdue : Review.due_cards s now = []) (hst : st.status = .idle) :
    (Review.quiz_start s st false limit now).1 = "No cards due today." ∧
    (Review.quiz_start s st false limit now).2 = st ∧
    ((Review.quiz_start s st false limit now).2).status = Review.QuizStatus.idle ∧
    (Review.quiz_answer s (Review.quiz_start s st false limit now).2 t2 now2).1 =
      "No quiz in progress." := by
  have hqs : Review.quiz_start s st false limit now = ("No cards due today.", st) := by
    unfold Review.quiz_start
    rw [if_neg (by simp)]
    rw [hdue]
  refine ⟨by rw [hqs], by rw [hqs], by rw [hqs]; exact hst, ?_⟩
  rw [hqs]
  unfold Review.quiz_answer
  rw [if_neg (by rw [hst]; simp)]

/-- C5 witness: the empty store at time 0, starting from the idle
session. -/
theorem claim_C5_witness :
    (Review.quiz_start empty_store Review.idle_state false 5 0).1 = "No cards due today." ∧
    (Review.quiz_start empty_store Review.idle_state false 5 0).2 = Review.idle_state ∧
    ((Review.quiz_start empty_store Review.idle_state false 5 0).2).status =
      Review.QuizStatus.idle ∧
    (Review.quiz_answer empty_store
        (Review.quiz_start empty_store Review.idle_state false 5 0).2 "x" 0).1 =
      "No quiz in progress." :=
  claim_C5 empty_store Review.idle_state 5 0 0 "x" rfl rfl

/-- C6: whenever the session status is not ACTIVE, `quiz_answer` and
`quiz_skip` both return the "no quiz in progress" text and leave the
store and the session state exactly as they were. -/
theorem claim_C6 (s : Review.Store) (st : Review.QuizState) (t : String)
    (now now2 : ℚ) (hst : st.status ≠ .active) :
    Review.quiz_answer s st t now = ("No quiz in progress.", s, st) ∧
    Review.quiz_skip s st now2 = ("No quiz in progress.", s, st) := by
  constructor
  · unfold Review.quiz_answer
    rw [if_neg hst]
  · unfold Review.quiz_skip
    rw [if_neg hst]

/-- C6 witness: the idle session over the sample store. -/
theorem claim_C6_witness :
    Review.quiz_answer sample_store Review.idle_state "hi" 0 =
      ("No quiz in progress.", sample_store, Review.idle_state) ∧
    Review.quiz_skip sample_store Review.idle_state 0 =
      ("No quiz in progress.", sample_store, Review.idle_state) :=
  claim_C6 sample_store Review.idle_state "hi" 0 0 (by decide)

/-- C7: for every non-empty question and answer and any topic,
`add_card` succeeds, the card it returns round-trips through
`load_cards` with question, answer and topic preserved exactly, and its
id is non-empty. -/
theorem claim_C7 (s : Review.Store) (question answer topic : String)
    (now : ℚ) (hq : question ≠ "") (ha : answer ≠ "") :
    ∃ card s2, Review.add_card s question answer topic now = .ok (card, s2) ∧
      card ∈ (Review.load_cards (some s2)).cards ∧
      card.question = question ∧ card.answer = answer ∧ card.topic = topic ∧
      card.id ≠ "" := by
  refine ⟨Review.new_card (Review.gen_id s) question answer topic now,
    ⟨s.cards ++ [Review.new_card (Review.gen_id s) question answer topic now]⟩,
    ?_, ?_, rfl, rfl, rfl, ?_⟩
  · unfold Review.add_card
    rw [if_neg (by push_neg; exact ⟨hq, ha⟩)]
  · exact List.mem_append_right _ (List.mem_singleton.mpr rfl)
  · intro h
    have h3 : (Review.gen_id s).length = ("" : String).length :=
      congrArg String.length h
    rw [Review.gen_id, String.length_append] at h3
    have h4 : ("card_" : String).length = 5 := rfl
    have h5 : ("" : String).length = 0 := rfl
    rw [h4, h5] at h3
    omega

/-- C7 witness: adding ("Q1?", "A1", "dev") to the empty store. -/
theorem claim_C7_witness :
    ∃ card s2, Review.add_card empty_store "Q1?" "A1" "dev" 0 = .ok (card, s2) ∧
      card ∈ (Review.load_cards (some s2)).cards ∧
      card.question = "Q1?" ∧ card.answer = "A1" ∧ card.topic = "dev" ∧
      card.id ≠ "" :=
  claim_C7 empty_store "Q1?" "A1" "dev" 0 (by decide) (by decide)

/-- C8: absent persisted files are empty state, never an error:
`load_cards` of a missing store file is the empty collection, reading a
missing session state file gives exactly the idle session, and a
`quiz_answer` against the state read from a missing file behaves
identically to one against IDLE (and reports "no quiz in progress"). -/
theorem claim_C8 (s : Review.Store) (t : String) (now : ℚ) :
    (Review.load_cards none).cards = [] ∧
    Review.read_quiz_state none = Review.idle_state ∧
    Review.quiz_answer s (Review.read_quiz_state none) t now =
      Review.quiz_answer s Review.idle_state t now ∧
    (Review.quiz_answer s (Review.read_quiz_state none) t now).1 =
      "No quiz in progress." := by
  refine ⟨rfl, rfl, rfl, ?_⟩
  unfold Review.quiz_answer
  rw [if_neg (by decide)]

/-- A synthetic (generated) quiz card, as the digest layer builds them. -/
def generated_card : Review.Card :=
  { Review.new_card "gen_1" "GQ?" "GA" "general" 0 with generated := true }

/-- A cached quiz holding the generated card. -/
def gen_quiz : StartupCards.Quiz :=
  { card := some generated_card, source_type := "generated" }

/-- An active session currently presenting the generated card. -/
def gen_state : Review.QuizState :=
  { status := .active, queue := [], current := some generated_card,
    answered := 0, skipped := 0, correct := 0, total := 1 }

/-- C9: a generated card is never mutated by the Scheduler: the reveal
path's guard skips `review_card` whenever the quiz card's `generated`
flag is set, leaving the store untouched, and `quiz_answer` likewise
leaves the store untouched whenever the current card is generated. -/
theorem claim_C9 (s : Review.Store) (quiz : StartupCards.Quiz)
    (c : Review.Card) (st : Review.QuizState) (t : String) (now now2 : ℚ)
    (hcard : quiz.card = some c) (hgen : c.generated = true) :
    StartupCards.reveal_step s quiz now = s ∧
    (∀ cc, st.current = some cc → cc.generated = true →
      (Review.quiz_answer s st t now2).2.1 = s) := by
  constructor
  · unfold StartupCards.reveal_step
    rw [hcard]
    have hno : ¬ (c.id ≠ "" ∧ c.generated = false) := by
      intro hand
      rw [hgen] at hand
      exact absurd hand.2 (by decide)
    dsimp only
    rw [if_neg hno]
  · intro cc hcc hgcc
    unfold Review.quiz_answer
    by_cases hact : st.status = .active
    · rw [if_pos hact, hcc]
      have hcond : ¬ (cc.generated = false ∧ cc.id ≠ "") := by
        intro hand
        rw [hgcc] at hand
        exact absurd hand.1 (by decide)
      dsimp only
      rw [if_neg hcond]
      cases st.queue <;> rfl
    · rw [if_neg hact]

/-- C9 witness: revealing and answering the generated card leaves the
sample store untouched. -/
theorem claim_C9_witness :
    StartupCards.reveal_step sample_store gen_quiz 0 = sample_store ∧
    (∀ cc, gen_state.current = some cc → cc.generated = true →
      (Review.quiz_answer sample_store gen_state "x" 0).2.1 = sample_store) :=
  claim_C9 sample_store gen_quiz generated_card gen_state "x" 0 0 rfl rfl

/-- C10: `get_quiz_card(use_cache=True)` never writes the cache and
never generates: the cache content after the call is exactly the content
before it, a cached quiz holding a card is returned as-is, and a
missing, unreadable or card-less cache yields the quiz with `card =
None` and `source_type = ""`, on which `reveal_answer` returns exactly
"No quiz card available.". -/
theorem claim_C10 (cache : Option StartupCards.Quiz) (s : Review.Store)
    (files : List String) (pick : ℕ) :
    (StartupCards.get_quiz_card true cache s files pick).2 = cache ∧
    (∀ qz, cache = some qz → qz.card.isSome →
      (StartupCards.get_quiz_card true cache s files pick).1 = qz) ∧
    (cache.bind StartupCards.Quiz.card = none →
      (StartupCards.get_quiz_card true cache s files pick).1 =
        { card := none, source_type := "" } ∧
      StartupCards.reveal_answer
          (StartupCards.get_quiz_card true cache s files pick).1 =
        "No quiz card available.") := by
  refine ⟨?_, ?_, ?_⟩
  · cases cache with
    | none => rfl
    | some qz =>
        unfold StartupCards.get_quiz_card StartupCards.load_quiz_card
        by_cases hs : qz.card.isSome
        · rw [if_pos rfl]
          dsimp only
          rw [if_pos hs]
        · rw [if_pos rfl]
          dsimp only
          rw [if_neg hs]
  · intro qz hc hs
    subst hc
    unfold StartupCards.get_quiz_card StartupCards.load_quiz_card
    rw [if_pos rfl]
    dsimp only
    rw [if_pos hs]
  · intro hb
    cases cache with
    | none => exact ⟨rfl, rfl⟩
    | some qz =>
        have hcn : qz.card = none := by simpa using hb
        unfold StartupCards.get_quiz_card StartupCards.load_quiz_card
        rw [if_pos rfl]
        dsimp only
        rw [if_neg (by rw [hcn]; decide)]
        exact ⟨rfl, rfl⟩
